import Mathlib

/-!
Shallow embedding of the conversation-orchestration core of the
Qharden_mcp repository (app/core/orchestrator.py, app/core/tool_registry.py,
app/services/session_manager.py, app/tasks.py) together with proofs about
the frozen behavioural claims.

Modelling conventions:
* Python machine behaviour is embedded value-level; code that can raise is
  given the type `Except PyErr _`, and `try/except` blocks become matches.
* External collaborators are oracles: the LLM gateway is a function from the
  call index to the returned `Message` (per `call_llm`, it never raises);
  the Celery `.delay` broker hands out task ids by submission index; the
  contents of the discovered tool registry and the behaviour of each
  registered tool's `execute` coroutine are parameters.
* Python strings are Lean `String`s; `re` patterns used by the source are
  implemented directly with their leftmost-match / greedy / lazy semantics;
  `\w` is modelled as ASCII alphanumeric plus underscore.
* A JSON number accepted by `json.loads` is represented by its lexeme.
-/

namespace Qharden

/-- A single-quote character, used when assembling Python string literals. -/
def sq : String := String.singleton (Char.ofNat 39)

/-- Exceptions that the embedded Python code can raise. -/
inductive PyErr
  | typeError (msg : String)
  | valueError (msg : String)
  | otherError (msg : String)
deriving DecidableEq, Repr

/-- `Role` literal of app/models/common.py. -/
inductive Role
  | system
  | user
  | assistant
  | tool
deriving DecidableEq, Repr

/-- The Python value of a `Role` literal. -/
def Role.str : Role → String
  | .system => "system"
  | .user => "user"
  | .assistant => "assistant"
  | .tool => "tool"

/-- `ToolCall` model of app/models/common.py. -/
structure ToolCall where
  id : String
  function : List (String × String)
  type : String := "function"
deriving DecidableEq, Repr

/-- `Message` model of app/models/common.py. -/
structure Message where
  role : Role
  content : Option String := none
  tool_calls : Option (List ToolCall) := none
  tool_call_id : Option String := none
deriving DecidableEq, Repr

/-- `Conversation` model of app/models/common.py. -/
structure Conversation where
  session_id : Option String := none
  messages : List Message := []
  workspace : List (String × String) := []
deriving DecidableEq, Repr

/-- Values produced by parsing tool-call arguments (the results of
`json.loads` on a single comma-free token, or the raw-string fallback).
A JSON number is kept as its source lexeme; a JSON array or object (which
can only reach `json.loads` without commas, since the capturing regex stops
at a comma) is validated structurally but kept as its stripped lexeme. -/
inductive PyValue
  | vNum (lexeme : String)
  | vBool (b : Bool)
  | vNull
  | vStr (s : String)
  | vComposite (lexeme : String)
deriving DecidableEq, Repr

/-! ### Python string helpers -/

/-- Whitespace stripped by Python `str.strip()`. -/
def pyIsSpace (c : Char) : Bool :=
  c = ' ' || c = '\t' || c = '\n' || c = '\x0d' || c = '\x0b' || c = '\x0c'

/-- Python `str.strip()` (no arguments): strip whitespace from both ends. -/
def pyStrip (s : String) : String :=
  String.mk (((s.data.dropWhile pyIsSpace).reverse.dropWhile pyIsSpace).reverse)

/-- Python `value.strip(quote-characters)` as used by the action-argument
fallback: strip single and double quote characters from both ends. -/
def isQuoteChar (c : Char) : Bool := c = '"' || c = Char.ofNat 39

/-- The fallback `value.strip(...)` of `_parse_action`, which strips quote
characters (not whitespace) from both ends of the raw captured value. -/
def stripQuoteChars (s : String) : String :=
  String.mk (((s.data.dropWhile isQuoteChar).reverse.dropWhile isQuoteChar).reverse)

/-- The `\w` character class of the source's regexes (ASCII model). -/
def isWordChar (c : Char) : Bool := c.isAlphanum || c = '_'

/-- `startsWithChars hay pat`: `pat` is a prefix of `hay`. -/
def startsWithChars : List Char → List Char → Bool
  | _, [] => true
  | [], _ :: _ => false
  | h :: hs, p :: ps => h = p && startsWithChars hs ps

/-- `containsSub hay pat`: `pat` occurs as a contiguous substring of `hay`
(Python's `pat in hay`). -/
def containsSub : List Char → List Char → Bool
  | [], pat => startsWithChars [] pat
  | c :: t, pat => startsWithChars (c :: t) pat || containsSub t pat

/-- Python's `pat in hay` on strings. -/
def strContains (hay pat : String) : Bool :=
  containsSub hay.data pat.data

/-- Splitter behind Python `str.split(sep)` for a non-empty separator:
leftmost non-overlapping occurrences, empty segments kept.  `cur` holds the
reversed current segment; the fuel (initially the text length, which
suffices since every recursive call consumes at least one character) keeps
the recursion structural. -/
def splitOnCharsGo (sep : List Char) : Nat → List Char → List Char → List (List Char)
  | _, cur, [] => [cur.reverse]
  | 0, cur, l => [cur.reverse ++ l]
  | fuel + 1, cur, c :: t =>
    if startsWithChars (c :: t) sep then
      cur.reverse :: splitOnCharsGo sep fuel [] ((c :: t).drop sep.length)
    else
      splitOnCharsGo sep fuel (c :: cur) t

/-- Python `text.split(sep)` for a non-empty separator (the orchestrator
only ever splits on the final-answer marker). -/
def pySplitOn (text sep : String) : List String :=
  (splitOnCharsGo sep.data text.data.length [] text.data).map String.mk

/-! ### Python `repr` of strings and pydantic `str()` of a `Message`

`Message` objects reach the conversation log stringified: the orchestrator
builds `f"Observation: {observation}"` where `observation` is a `Message`,
and pydantic's `__str__` renders `field=repr(value)` pairs joined by
spaces. -/

/-- Lowercase hex digit. -/
def hexDigit (n : Nat) : Char :=
  if n < 10 then Char.ofNat (48 + n) else Char.ofNat (87 + n)

/-- Two-digit lowercase hex of a byte. -/
def hex2 (n : Nat) : String :=
  String.mk [hexDigit (n / 16 % 16), hexDigit (n % 16)]

/-- Escaping of one character inside a Python `repr` of a string with the
chosen quote character (ASCII model of CPython's behaviour). -/
def pyEscChar (q : Char) (c : Char) : String :=
  if c = '\\' then "\\\\"
  else if c = q then "\\" ++ String.singleton q
  else if c = '\n' then "\\n"
  else if c = '\x0d' then "\\r"
  else if c = '\t' then "\\t"
  else if c.toNat < 32 || c.toNat = 127 then "\\x" ++ hex2 c.toNat
  else String.singleton c

/-- Python `repr` of a string: single quotes by default, double quotes when
the text contains a single quote but no double quote. -/
def pyReprStr (s : String) : String :=
  let q : Char :=
    if s.data.contains (Char.ofNat 39) && !(s.data.contains '"') then '"'
    else Char.ofNat 39
  String.singleton q ++ String.join (s.data.map (pyEscChar q)) ++ String.singleton q

/-- `repr` of an `Optional[str]` field. -/
def pyReprOptStr : Option String → String
  | none => "None"
  | some s => pyReprStr s

/-- pydantic-style rendering of a `ToolCall` (only `None` occurs in the
reachable executions; the non-`None` case follows pydantic's repr shape). -/
def toolCallRepr (tc : ToolCall) : String :=
  "ToolCall(id=" ++ pyReprStr tc.id ++ ", function={...}, type="
    ++ pyReprStr tc.type ++ ")"

/-- `repr` of the `Optional[List[ToolCall]]` field. -/
def pyReprOptToolCalls : Option (List ToolCall) → String
  | none => "None"
  | some l => "[" ++ String.intercalate ", " (l.map toolCallRepr) ++ "]"

/-- pydantic `BaseModel.__str__` of a `Message`:
`role=... content=... tool_calls=... tool_call_id=...`. -/
def messageStr (m : Message) : String :=
  "role=" ++ pyReprStr m.role.str
    ++ " content=" ++ pyReprOptStr m.content
    ++ " tool_calls=" ++ pyReprOptToolCalls m.tool_calls
    ++ " tool_call_id=" ++ pyReprOptStr m.tool_call_id

/-! ### Model of `json.loads` on a single comma-free token

`_parse_action` feeds each captured argument value to `json.loads`,
falling back to quote-stripping on failure. -/

/-- JSON whitespace accepted by `json.loads` around a document. -/
def isJsonWs (c : Char) : Bool :=
  c = ' ' || c = '\t' || c = '\n' || c = '\x0d'

/-- Strip JSON whitespace from both ends. -/
def trimJsonWs (l : List Char) : List Char :=
  ((l.dropWhile isJsonWs).reverse.dropWhile isJsonWs).reverse

/-- Parse the digits-and-beyond tail of a JSON number after the optional
sign, returning the remainder on success. -/
def jsonNumberAfterSign (l : List Char) : Option (List Char) :=
  let intRem : Option (List Char) :=
    match l with
    | '0' :: r => some r
    | c :: r => if c.isDigit then some (r.dropWhile Char.isDigit) else none
    | [] => none
  match intRem with
  | none => none
  | some r =>
    let fracRem : Option (List Char) :=
      match r with
      | '.' :: r2 =>
        if (r2.takeWhile Char.isDigit).isEmpty then none
        else some (r2.dropWhile Char.isDigit)
      | _ => some r
    match fracRem with
    | none => none
    | some r2 =>
      match r2 with
      | 'e' :: r3 | 'E' :: r3 =>
        let r4 := match r3 with
          | '+' :: r4 => r4
          | '-' :: r4 => r4
          | _ => r3
        if (r4.takeWhile Char.isDigit).isEmpty then none
        else some (r4.dropWhile Char.isDigit)
      | _ => some r2

/-- Whole-token JSON number (the `json` module's NUMBER_RE). -/
def isJsonNumber (l : List Char) : Bool :=
  let body := match l with
    | '-' :: r => r
    | _ => l
  jsonNumberAfterSign body = some []

/-- Hex digit of JSON `\uXXXX` escapes. -/
def isHexChar (c : Char) : Bool :=
  c.isDigit || ('a' ≤ c && c ≤ 'f') || ('A' ≤ c && c ≤ 'F')

/-- Numeric value of a hex digit. -/
def hexVal (x : Char) : Nat :=
  if x.isDigit then x.toNat - 48
  else if x.toNat ≥ 97 then x.toNat - 87 else x.toNat - 55

/-- Decoded character of a simple (single-letter) JSON escape. -/
def simpleEsc (e : Char) : Option Char :=
  if e = '"' then some '"'
  else if e = '\\' then some '\\'
  else if e = '/' then some '/'
  else if e = 'b' then some '\x08'
  else if e = 'f' then some '\x0c'
  else if e = 'n' then some '\n'
  else if e = 'r' then some '\x0d'
  else if e = 't' then some '\t'
  else none

/-- Decode a JSON string body after its opening quote; returns the decoded
text and the remainder after the closing quote. Strict mode: raw control
characters are rejected, only the standard escapes are allowed.
(`\uXXXX` is decoded through `Char.ofNat`; surrogate pairing is not
modelled.) -/
def parseJsonStringTail : List Char → Option (String × List Char)
  | [] => none
  | '"' :: r => some ("", r)
  | '\\' :: 'u' :: a :: b :: c :: d :: r2 =>
    if isHexChar a && isHexChar b && isHexChar c && isHexChar d then
      match parseJsonStringTail r2 with
      | some (s, rem) =>
        some (String.singleton
          (Char.ofNat (hexVal a * 4096 + hexVal b * 256 + hexVal c * 16 + hexVal d))
          ++ s, rem)
      | none => none
    else none
  | '\\' :: e :: r =>
    (match simpleEsc e with
     | some c =>
       match parseJsonStringTail r with
       | some (s, rem) => some (String.singleton c ++ s, rem)
       | none => none
     | none => none)
  | c :: r =>
    if c.toNat < 32 then none
    else
      match parseJsonStringTail r with
      | some (s, rem) => some (String.singleton c ++ s, rem)
      | none => none

mutual

/-- Fueled validator for a JSON value; returns the remainder on success.
The fuel is an upper bound on recursion depth; `length + 1` always
suffices because every recursive call consumes at least one character. -/
def parseJsonVal : Nat → List Char → Option (List Char)
  | 0, _ => none
  | fuel + 1, l =>
    match l with
    | '"' :: r => (parseJsonStringTail r).map (·.2)
    | '[' :: r =>
      (match r.dropWhile isJsonWs with
       | ']' :: r2 => some r2
       | r1 => parseJsonArrTail fuel r1)
    | '{' :: r =>
      (match r.dropWhile isJsonWs with
       | '}' :: r2 => some r2
       | r1 => parseJsonObjTail fuel r1)
    | _ =>
      if startsWithChars l "true".data then some (l.drop 4)
      else if startsWithChars l "false".data then some (l.drop 5)
      else if startsWithChars l "null".data then some (l.drop 4)
      else if startsWithChars l "NaN".data then some (l.drop 3)
      else if startsWithChars l "Infinity".data then some (l.drop 8)
      else if startsWithChars l "-Infinity".data then some (l.drop 9)
      else
        match l with
        | '-' :: r => (jsonNumberAfterSign r)
        | _ => jsonNumberAfterSign l

/-- Elements of a JSON array after the opening bracket and leading
whitespace; consumes through the closing bracket. -/
def parseJsonArrTail : Nat → List Char → Option (List Char)
  | 0, _ => none
  | fuel + 1, l =>
    match parseJsonVal fuel l with
    | none => none
    | some r =>
      match r.dropWhile isJsonWs with
      | ']' :: r2 => some r2
      | ',' :: r2 => parseJsonArrTail fuel (r2.dropWhile isJsonWs)
      | _ => none

/-- Members of a JSON object after the opening brace and leading
whitespace; consumes through the closing brace. -/
def parseJsonObjTail : Nat → List Char → Option (List Char)
  | 0, _ => none
  | fuel + 1, l =>
    match l with
    | '"' :: r =>
      (match parseJsonStringTail r with
       | none => none
       | some (_, r2) =>
         match r2.dropWhile isJsonWs with
         | ':' :: r3 =>
           (match parseJsonVal fuel (r3.dropWhile isJsonWs) with
            | none => none
            | some r4 =>
              match r4.dropWhile isJsonWs with
              | '}' :: r5 => some r5
              | ',' :: r5 => parseJsonObjTail fuel (r5.dropWhile isJsonWs)
              | _ => none)
         | _ => none)
    | _ => none

end

/-- `json.loads` on a whole document as used by `_parse_action`: trims
whitespace and accepts exactly one JSON value spanning the rest. -/
def pyJsonLoads (s : String) : Option PyValue :=
  let t := trimJsonWs s.data
  if t = "true".data then some (.vBool true)
  else if t = "false".data then some (.vBool false)
  else if t = "null".data then some .vNull
  else if t = "NaN".data || t = "Infinity".data || t = "-Infinity".data then
    some (.vNum (String.mk t))
  else if isJsonNumber t then some (.vNum (String.mk t))
  else
    match t with
    | '"' :: r =>
      (match parseJsonStringTail r with
       | some (str, []) => some (.vStr str)
       | _ => none)
    | '[' :: _ =>
      (match parseJsonVal (t.length + 1) t with
       | some [] => some (.vComposite (String.mk t))
       | _ => none)
    | '{' :: _ =>
      (match parseJsonVal (t.length + 1) t with
       | some [] => some (.vComposite (String.mk t))
       | _ => none)
    | _ => none

/-! ### `_parse_action` (app/core/orchestrator.py, lines 59-88)

The action regex is `Action:\s*(\w+)\((.*)\)` under `re.search`
(leftmost match, `.` excluding newlines, greedy `(.*)` so the second group
runs to the last `)` on the line).  Argument pairs are then extracted with
`(\w+)\s*=\s*(".*?"|'.*?'|[^,]+)` under `findall`, each value going
through `json.loads` with a quote-strip fallback. -/

/-- Scan a reversed line for its last `)`; return the characters before it
(in original order). -/
def dropToParen : List Char → Option (List Char)
  | [] => none
  | c :: t => if c = ')' then some t.reverse else dropToParen t

/-- Anchored attempt of `Action:\s*(\w+)\((.*)\)` at the head of `l`. -/
def tryMatchAt (l : List Char) : Option (String × String) :=
  if startsWithChars l "Action:".data then
    let r2 := (l.drop 7).dropWhile pyIsSpace
    let name := r2.takeWhile isWordChar
    match name with
    | [] => none
    | _ :: _ =>
      match r2.drop name.length with
      | '(' :: r4 =>
        (match dropToParen (r4.takeWhile (fun c => c ≠ '\n')).reverse with
         | some grp => some (String.mk name, String.mk grp)
         | none => none)
      | _ => none
  else none

/-- `re.search`: try the anchored match at each position, left to right. -/
def findMatch : List Char → Option (String × String)
  | [] => none
  | c :: t =>
    match tryMatchAt (c :: t) with
    | some r => some r
    | none => findMatch t

/-- Lazy `.*?` up to the closing quote `q` on the same line: the shortest
same-line span before the first `q`. -/
def lazyToQuote (q : Char) : List Char → Option (List Char × List Char)
  | [] => none
  | c :: t =>
    if c = q then some ([], t)
    else if c = '\n' then none
    else
      match lazyToQuote q t with
      | some (inner, rest) => some (c :: inner, rest)
      | none => none

/-- The `[^,]+` alternative of the value pattern, starting at `r`. -/
def nonCommaAlt (key : List Char) (r : List Char) : Option ((String × String) × List Char) :=
  let v := r.takeWhile (fun c => c ≠ ',')
  match v with
  | [] => none
  | _ :: _ => some ((String.mk key, String.mk v), r.drop v.length)

/-- Anchored attempt of `(\w+)\s*=\s*(".*?"|'.*?'|[^,]+)` at the head of
`l`.  The `\s*` after `=` is greedy but backtracks: when every alternative
fails after the maximal skip and at least one space was skipped, `[^,]+`
re-matches starting from the last skipped space. -/
def matchArgAt (l : List Char) : Option ((String × String) × List Char) :=
  let key := l.takeWhile isWordChar
  match key with
  | [] => none
  | _ :: _ =>
    match (l.drop key.length).dropWhile pyIsSpace with
    | '=' :: r2 =>
      let ws := r2.takeWhile pyIsSpace
      let r3 := r2.dropWhile pyIsSpace
      let quoted : Option ((String × String) × List Char) :=
        match r3 with
        | '"' :: r4 =>
          (match lazyToQuote '"' r4 with
           | some (inner, rest) =>
             some ((String.mk key, String.mk ('"' :: (inner ++ ['"']))), rest)
           | none => none)
        | c :: r4 =>
          if c = Char.ofNat 39 then
            match lazyToQuote (Char.ofNat 39) r4 with
            | some (inner, rest) =>
              some ((String.mk key, String.mk (c :: (inner ++ [c]))), rest)
            | none => none
          else none
        | [] => none
      (match quoted with
       | some res => some res
       | none =>
         match nonCommaAlt key r3 with
         | some res => some res
         | none =>
           -- backtrack `\s*` by one: `[^,]+` consumes the last skipped
           -- space (and everything up to the next comma, here nothing)
           match ws with
           | [] => none
           | _ :: _ => some ((String.mk key, String.mk [' ']), r3))
    | _ => none

/-- `findall` of the argument pattern: non-overlapping leftmost matches,
advancing one character on failure.  Fuel `length` suffices since every
match consumes at least three characters. -/
def argsFindall : Nat → List Char → List (String × String)
  | 0, _ => []
  | _ + 1, [] => []
  | fuel + 1, c :: t =>
    match matchArgAt (c :: t) with
    | some (kv, rest) => kv :: argsFindall fuel rest
    | none => argsFindall fuel t

/-- `args[key] = value` on a Python dict: first-occurrence position is
kept, the value is overwritten. -/
def dictInsert : List (String × PyValue) → String → PyValue → List (String × PyValue)
  | [], k, v => [(k, v)]
  | (k', v') :: t, k, v =>
    if k' = k then (k, v) :: t else (k', v') :: dictInsert t k v

/-- One argument value: `json.loads` first, quote-strip fallback. -/
def parseValue (raw : String) : PyValue :=
  match pyJsonLoads raw with
  | some v => v
  | none => .vStr (stripQuoteChars raw)

/-- Build the argument dict from the findall pairs. -/
def buildArgs (kvs : List (String × String)) : List (String × PyValue) :=
  kvs.foldl (fun acc kv => dictInsert acc kv.1 (parseValue kv.2)) []

/-- `_parse_action` of app/core/orchestrator.py.  (The surrounding
`try/except` is dead: no statement of the body raises.) -/
def parse_action (response_text : String) :
    Option (String × List (String × PyValue)) :=
  match findMatch response_text.data with
  | none => none
  | some (nm, grp) =>
    let tool_name := pyStrip nm
    let tool_args_str := pyStrip grp
    if tool_args_str = "" then some (tool_name, [])
    else
      some (tool_name,
        buildArgs (argsFindall tool_args_str.data.length tool_args_str.data))

/-! ### Tool registry (app/core/tool_registry.py)

`ToolRegistry.execute` is declared `async def execute(self, tool_name: str,
kwargs: Dict[str, Any])`.  Both call sites — the orchestrator's
`_execute_tool_call` and the Celery task `_async_execute_and_save` — invoke
it as `tool_registry.execute(tool_name=..., conversation=..., kwargs=...)`.
Python binds keyword arguments before running the body, and `conversation`
matches no parameter, so those calls raise `TypeError` at binding time.
The binding step is modelled explicitly. -/

/-- A registered tool as the registry sees it. -/
structure ToolInfo where
  name : String
  description : String
deriving DecidableEq, Repr

/-- Parameter names (after `self`) of `ToolRegistry.execute`. -/
def registryExecuteParams : List String := ["tool_name", "kwargs"]

/-- Keyword names supplied by both call sites of `tool_registry.execute`. -/
def registryCallKwargs : List String := ["tool_name", "conversation", "kwargs"]

/-- Python keyword-argument binding for a plain (no `**kwargs`) signature:
an unexpected keyword, then a missing parameter, raises `TypeError` before
the body runs. -/
def callWithKwargs (params supplied : List String)
    (body : Except PyErr String) : Except PyErr String :=
  match supplied.find? (fun k => !(params.contains k)) with
  | some k =>
    .error (.typeError
      ("ToolRegistry.execute() got an unexpected keyword argument "
        ++ sq ++ k ++ sq))
  | none =>
    match params.find? (fun p => !(supplied.contains p)) with
    | some p =>
      .error (.typeError
        ("ToolRegistry.execute() missing required argument " ++ sq ++ p ++ sq))
    | none => body

/-- Body of `ToolRegistry.execute` (lines 55-68): a registered name is
forwarded to the tool's `execute` coroutine (whose behaviour, including any
raised fault, is the oracle `impl`); an unknown name raises `ValueError`. -/
def registryExecute (tools : List ToolInfo)
    (impl : String → Except PyErr String) (tool_name : String) :
    Except PyErr String :=
  if tools.any (fun t => t.name = tool_name) then impl tool_name
  else .error (.valueError ("Tool " ++ sq ++ tool_name ++ sq ++ " not found."))

/-! ### Orchestrator (app/core/orchestrator.py) -/

/-- `ASYNC_TOOLS` (lines 51-56). -/
def ASYNC_TOOLS : List String :=
  ["optimize_structure_with_mace",
   "download_optimized_structure",
   "optimize_structure_with_xtb",
   "download_xtb_optimization_result"]

/-- `MAX_TURNS` (line 120). -/
def MAX_TURNS : Nat := 10

/-- The final-answer marker tested with `in` and used with `split`. -/
def finalMarker : String := "Final Answer:"

/-- The stalled-turn reply (line 173). -/
def clarificationText : String :=
  "I seem to be stuck. Could you please clarify or rephrase your request?"

/-- The turn-budget reply (line 176). -/
def timeoutText : String :=
  "I have reached the maximum number of steps without finding a final answer. Please try reformulating your request."

/-- `SYSTEM_PROMPT` (lines 19-48), verbatim. -/
def SYSTEM_PROMPT : String :=
  "\nYou are a helpful and meticulous AI assistant, an expert in chemistry, materials science, and scientific computation. Your goal is to assist users by answering their questions and performing complex tasks.\n\nTo do this, you will operate in a loop of Thought, Action, and Observation. You must always follow this format.\n\nAt each step, you must first use a \"Thought\" to reason about the user\x27s request and your plan. Then, you must output an \"Action\" to take. After you perform an action, you will be given an \"Observation\" with the result. You will use this observation to continue your thought process.\n\nYou have access to the following tools:\n{tool_definitions}\n\nThe format for an Action MUST be `tool_name(arg1=value1, arg2=\"value2\", ...)` as a plain string.\n\nHere is an example of a conversation:\n\nUser: \"Hello, can you tell me about the Python library called \x27httpx\x27 and also convert its documentation page URL into a CIF file?\"\n\nThought: The user has two requests. First, to get information about the \x27httpx\x27 library, and second, to convert a URL into a CIF file, which is a nonsensical task. I should first perform the valid request, which is searching for \x27httpx\x27. I will use the `tavily_search` tool for that. For the second request, I will point out that it\x27s not a logical operation.\nAction: tavily_search(query=\"python library httpx\")\n\nObservation: [tavily_search result with URLs and content snippets]\n\nThought: I have successfully found information about httpx. I can now answer the user\x27s first question. For the second part of the request, converting a URL to a CIF file is not a valid chemical operation, so I should inform the user about this. I have all the information needed to provide a complete answer.\nFinal Answer: The Python library \x27httpx\x27 is a modern, high-performance HTTP client for Python, designed to be intuitive and support both sync and async operations. It\x27s often considered a successor to the popular \x27requests\x27 library.\n\nRegarding your second request, converting a URL into a CIF (Crystallographic Information File) is not a standard or logical operation, as CIF files describe atomic structures.\n\nIf you have a structure you\x27d like me to analyze or convert, please let me know!\n\nYou will now begin. Remember to ALWAYS use the Thought and Action format.\n"

/-- The tool-definition lines interpolated into the system prompt
(line 127). -/
def toolDefsString (tools : List ToolInfo) : String :=
  String.intercalate "\n"
    (tools.map (fun t => "- " ++ t.name ++ ": " ++ t.description))

/-- `SYSTEM_PROMPT.format(tool_definitions=...)` (line 128). -/
def formattedSystemPrompt (tools : List ToolInfo) : String :=
  SYSTEM_PROMPT.replace "{tool_definitions}" (toolDefsString tools)

/-- Python truthiness test `not conversation.session_id` (lines 123, 21 of
app/tasks.py): `None` and the empty string are falsy. -/
def sessionIdFalsy : Option String → Bool
  | none => true
  | some s => s = ""

/-- Text of the async announcement before the task id (line 103). -/
def asyncPre (tool_name : String) : String :=
  "The long-running task " ++ sq ++ tool_name ++ sq
    ++ " has been submitted successfully. The task ID is "

/-- Text of the async announcement after the task id (line 103). -/
def asyncPost : String :=
  ". Use the " ++ sq ++ "check_task_status" ++ sq
    ++ " tool to check for its completion."

/-- The announcement synthesized for an async dispatch (line 103). -/
def asyncContent (tool_name task_id : String) : String :=
  asyncPre tool_name ++ task_id ++ asyncPost

/-- External collaborators of one step, as oracles:
`llm` is the `Message` returned by the n-th `call_llm` invocation
(`call_llm` catches every transport fault, so it is total); `taskIds`
hands out the Celery task id of the n-th `.delay` submission; `regTools`
is the content of the discovered tool registry; `toolImpl` is the
behaviour of a registered tool's `execute` coroutine given the parsed
arguments. -/
structure Env where
  llm : Nat → Message
  taskIds : Nat → String
  regTools : List ToolInfo
  toolImpl : String → List (String × PyValue) → Except PyErr String

/-- Mutable state threaded through the ReAct loop, with the persistence
trace: `saves` lists, in order, every snapshot passed to
`session_manager.save_conversation`, and `jobs` every `.delay` submission
`(tool_name, args)`. -/
structure LoopState where
  conv : Conversation
  saves : List Conversation
  llmCalls : Nat
  jobs : List (String × List (String × PyValue))

/-- Observable result of `run_conversation_step`: the returned `Message`
or the propagated exception, the in-memory conversation at exit, and the
persistence/submission/call traces. -/
structure StepResult where
  outcome : Except PyErr Message
  conv : Conversation
  saves : List Conversation
  llmCalls : Nat
  jobs : List (String × List (String × PyValue))

/-- Append a message to the conversation log. -/
def appendMsg (c : Conversation) (m : Message) : Conversation :=
  { c with messages := c.messages ++ [m] }

/-- Outcome of one turn of the ReAct loop: continue with a new state, or
halt with a result. -/
inductive TurnOut
  | cont (st : LoopState)
  | halt (r : StepResult)

/-- One iteration of the `for turn in range(MAX_TURNS)` loop of
`run_conversation_step` (lines 135-173), including `_execute_tool_call`
(lines 91-113) inline: an async-set tool is submitted via `.delay` and its
announcement wrapped as a tool `Message`; any other action reaches the
`tool_registry.execute(tool_name=..., conversation=..., kwargs=...)` call.
Either observation is stringified into a user-role `Observation: ...`
message (line 167), saved, and the loop continues.  A final answer and the
stalled branch halt; a raised fault propagates. -/
def stepTurn (e : Env) (st : LoopState) : TurnOut :=
  let text := (e.llm st.llmCalls).content.getD ""
  let conv1 := appendMsg st.conv { role := .assistant, content := some text }
  let calls1 := st.llmCalls + 1
  if strContains text finalMarker then
    let final := pyStrip ((pySplitOn text finalMarker).getLastD "")
    .halt { outcome := .ok { role := .assistant, content := some final },
            conv := conv1, saves := st.saves ++ [conv1], llmCalls := calls1,
            jobs := st.jobs }
  else
    match parse_action text with
    | some (tool_name, tool_args) =>
      if ASYNC_TOOLS.contains tool_name then
        let obs : Message :=
          { role := .tool,
            content := some (asyncContent tool_name (e.taskIds st.jobs.length)) }
        let conv2 := appendMsg conv1
          { role := .user, content := some ("Observation: " ++ messageStr obs) }
        .cont { conv := conv2, saves := st.saves ++ [conv2], llmCalls := calls1,
                jobs := st.jobs ++ [(tool_name, tool_args)] }
      else
        match callWithKwargs registryExecuteParams registryCallKwargs
            (registryExecute e.regTools (fun nm => e.toolImpl nm tool_args)
              tool_name) with
        | .error err =>
          .halt { outcome := .error err, conv := conv1, saves := st.saves,
                  llmCalls := calls1, jobs := st.jobs }
        | .ok tool_result =>
          let obs : Message := { role := .tool, content := some tool_result }
          let conv2 := appendMsg conv1
            { role := .user, content := some ("Observation: " ++ messageStr obs) }
          .cont { conv := conv2, saves := st.saves ++ [conv2], llmCalls := calls1,
                  jobs := st.jobs }
    | none =>
      .halt { outcome := .ok { role := .assistant,
                               content := some clarificationText },
              conv := conv1, saves := st.saves, llmCalls := calls1,
              jobs := st.jobs }

/-- The bounded ReAct loop; exhausting the budget returns the fixed
timeout message (lines 175-178) without appending or saving it. -/
def runLoop (e : Env) : Nat → LoopState → StepResult
  | 0, st =>
    { outcome := .ok { role := .assistant, content := some timeoutText },
      conv := st.conv, saves := st.saves, llmCalls := st.llmCalls,
      jobs := st.jobs }
  | fuel + 1, st =>
    match stepTurn e st with
    | .halt r => r
    | .cont st' => runLoop e fuel st'

/-- The INIT phase of `run_conversation_step` (lines 122-133): seed the
formatted system prompt when the loaded conversation's `session_id` is
falsy, then append the user turn.  The result is the first snapshot
persisted. -/
def initialConv (e : Env) (session_id user_input : String)
    (loaded : Conversation) : Conversation :=
  let sysMsg : Message :=
    { role := .system,
      content := some (formattedSystemPrompt e.regTools) }
  let conv0 :=
    if sessionIdFalsy loaded.session_id then
      { loaded with
          session_id := some session_id,
          messages := loaded.messages ++ [sysMsg] }
    else loaded
  appendMsg conv0 { role := .user, content := some user_input }

/-- `run_conversation_step` (lines 116-178).  `loaded` is the conversation
returned by `session_manager.get_conversation` (which never raises). -/
def run_conversation_step (e : Env) (session_id user_input : String)
    (loaded : Conversation) : StepResult :=
  let conv1 := initialConv e session_id user_input loaded
  runLoop e MAX_TURNS { conv := conv1, saves := [conv1], llmCalls := 0, jobs := [] }

/-! ### Session store (app/services/session_manager.py) -/

/-- Outcome of the `self._redis_client.get(session_id)` call inside
`get_conversation`: the store can raise, return `None`, or return the
stored payload. -/
inductive RedisGet
  | errored
  | absent
  | found (raw : String)
deriving DecidableEq, Repr

/-- `SessionManager.get_conversation` (lines 54-72): the payload is tested
for truthiness, deserialized with `Conversation.model_validate_json`
(modelled by the oracle `deser`), and every exception is caught, yielding
a fresh `Conversation`. -/
def get_conversation (g : RedisGet)
    (deser : String → Except PyErr Conversation) : Conversation :=
  match g with
  | .errored => {}
  | .absent => {}
  | .found raw =>
    if raw = "" then {}
    else
      match deser raw with
      | .ok c => c
      | .error _ => {}

/-- Value-level view of the Redis store for whole-object saves: the
pydantic `model_dump_json` / `model_validate_json` round trip is modelled
as exact. -/
abbrev Store := List (String × Conversation)

/-- Redis `SET` under a key. -/
def storeSet : Store → String → Conversation → Store
  | [], k, c => [(k, c)]
  | (k', c') :: t, k, c =>
    if k' = k then (k, c) :: t else (k', c') :: storeSet t k c

/-- Redis `GET` under a key. -/
def storeGet (st : Store) (k : String) : Option Conversation :=
  (st.find? (fun p => p.1 = k)).map (·.2)

/-- `save_conversation` on the value-level store (it catches every
exception, so it never raises; on an available store it overwrites the
whole object). -/
def save_conversation (st : Store) (id : String) (c : Conversation) : Store :=
  storeSet st id c

/-- `get_conversation` against the value-level store. -/
def load_conversation (st : Store) (id : String) : Conversation :=
  (storeGet st id).getD {}

/-! ### Background task (app/tasks.py) -/

/-- Observable result of `_async_execute_and_save` / `execute_tool_task`:
the returned string or propagated exception, plus every conversation
snapshot passed to `save_conversation`. -/
structure TaskResult where
  outcome : Except PyErr String
  saves : List Conversation

/-- `_async_execute_and_save` (lines 14-39): loads the conversation
(`loaded` is the `get_conversation` result), backfills a falsy session id,
invokes `tool_registry.execute(tool_name=..., conversation=..., kwargs=...)`,
and on success appends a tool-role observation and saves.  A raised fault
propagates: nothing is appended, nothing is saved. -/
def async_execute_and_save (regTools : List ToolInfo)
    (impl : String → List (String × PyValue) → Except PyErr String)
    (loaded : Conversation) (session_id tool_name : String)
    (tool_args : List (String × PyValue)) : TaskResult :=
  let conv :=
    if sessionIdFalsy loaded.session_id then
      { loaded with session_id := some session_id }
    else loaded
  match callWithKwargs registryExecuteParams registryCallKwargs
      (registryExecute regTools (fun nm => impl nm tool_args) tool_name) with
  | .error err => { outcome := .error err, saves := [] }
  | .ok res =>
    { outcome := .ok res,
      saves := [appendMsg conv { role := .tool, content := some res }] }

/-- `execute_tool_task` (lines 41-59): runs the helper and re-raises any
exception, so its observable behaviour coincides with the helper's. -/
def execute_tool_task (regTools : List ToolInfo)
    (impl : String → List (String × PyValue) → Except PyErr String)
    (loaded : Conversation) (session_id tool_name : String)
    (tool_args : List (String × PyValue)) : TaskResult :=
  async_execute_and_save regTools impl loaded session_id tool_name tool_args

/-! ### Log-shape predicate and scripted environments for the claims -/

/-- "At most one system message, and when present it is the first entry":
no system message may occur past position 0. -/
def sysFirstOk (msgs : List Message) : Bool :=
  (msgs.drop 1).all (fun m => m.role != Role.system)

/-- An assistant message with the given text, as `call_llm` returns. -/
def mkAsst (s : String) : Message := { role := .assistant, content := some s }

/-- Invariant of every conversation a step persists for session `sid`:
its session id is set to `sid`, its log is nonempty, and it has at most
one system message, always first. -/
def convOk (sid : String) (c : Conversation) : Prop :=
  sysFirstOk c.messages = true ∧ c.session_id = some sid ∧ c.messages ≠ []

/-- The TypeError both `tool_registry.execute(...)` call sites raise. -/
def conversationKwErr : PyErr :=
  .typeError ("ToolRegistry.execute() got an unexpected keyword argument "
    ++ sq ++ "conversation" ++ sq)

/-- A gateway that always stalls: neither a final marker nor an action. -/
def envStalled : Env :=
  { llm := fun _ => mkAsst "Thought: still thinking.",
    taskIds := fun _ => "TASK-1",
    regTools := [],
    toolImpl := fun _ _ => .ok "" }

/-- A gateway whose first turn requests the registered sync tool
`tavily_search` and whose second turn would produce a final answer. -/
def envSyncTool : Env :=
  { llm := fun n =>
      if n = 0 then mkAsst "Action: tavily_search(query=\"x\")"
      else mkAsst "Final Answer: X",
    taskIds := fun _ => "TASK-1",
    regTools := [{ name := "tavily_search", description := "Searches the web." }],
    toolImpl := fun _ _ => .ok "search result" }

/-- A gateway whose first turn requests a tool name absent from the
registry. -/
def envUnknownTool : Env :=
  { llm := fun n =>
      if n = 0 then mkAsst "Action: nonexistent_tool(x=1)"
      else mkAsst "Final Answer: X",
    taskIds := fun _ => "TASK-1",
    regTools := [{ name := "tavily_search", description := "Searches the web." }],
    toolImpl := fun _ _ => .ok "search result" }

/-- A gateway whose first turn requests the async-set tool
`optimize_structure_with_mace` and whose second turn finishes. -/
def envAsyncTool : Env :=
  { llm := fun n =>
      if n = 0 then mkAsst "Action: optimize_structure_with_mace()"
      else mkAsst "Final Answer: done",
    taskIds := fun _ => "TASK-1",
    regTools := [],
    toolImpl := fun _ _ => .ok "" }

/-! ## Helper lemmas -/

theorem appendMsg_messages (c : Conversation) (m : Message) :
    (appendMsg c m).messages = c.messages ++ [m] := rfl

theorem appendMsg_session (c : Conversation) (m : Message) :
    (appendMsg c m).session_id = c.session_id := rfl

/-- A halting turn only appends to the conversation, the persistence trace
and the job trace, and makes exactly one gateway call. -/
theorem stepTurn_halt_rel (e : Env) (st : LoopState) (r : StepResult)
    (h : stepTurn e st = .halt r) :
    st.conv.messages <+: r.conv.messages ∧ st.saves <+: r.saves ∧
    st.jobs <+: r.jobs ∧ r.llmCalls = st.llmCalls + 1 := by
  simp only [stepTurn] at h
  split at h
  · injection h with h
    subst h
    exact ⟨List.prefix_append _ _, List.prefix_append _ _,
      List.prefix_refl _, rfl⟩
  · split at h
    · split at h
      · exact absurd h (by simp)
      · split at h
        · injection h with h
          subst h
          exact ⟨List.prefix_append _ _, List.prefix_refl _,
            List.prefix_refl _, rfl⟩
        · exact absurd h (by simp)
    · injection h with h
      subst h
      exact ⟨List.prefix_append _ _, List.prefix_refl _,
        List.prefix_refl _, rfl⟩

/-- A continuing turn only appends to the conversation, the persistence
trace and the job trace, and makes exactly one gateway call. -/
theorem stepTurn_cont_rel (e : Env) (st : LoopState) (st' : LoopState)
    (h : stepTurn e st = .cont st') :
    st.conv.messages <+: st'.conv.messages ∧ st.saves <+: st'.saves ∧
    st.jobs <+: st'.jobs ∧ st'.llmCalls = st.llmCalls + 1 := by
  simp only [stepTurn] at h
  split at h
  · exact absurd h (by simp)
  · split at h
    · split at h
      · injection h with h
        subst h
        refine ⟨?_, List.prefix_append _ _, List.prefix_append _ _, rfl⟩
        simp only [appendMsg_messages, List.append_assoc]
        exact List.prefix_append _ _
      · split at h
        · exact absurd h (by simp)
        · injection h with h
          subst h
          refine ⟨?_, List.prefix_append _ _, List.prefix_refl _, rfl⟩
          simp only [appendMsg_messages, List.append_assoc]
          exact List.prefix_append _ _
    · exact absurd h (by simp)

/-- The whole loop only appends to the conversation, the persistence trace
and the job trace, and never decreases the call count. -/
theorem runLoop_mono (e : Env) (fuel : Nat) (st : LoopState) :
    st.conv.messages <+: (runLoop e fuel st).conv.messages ∧
    st.saves <+: (runLoop e fuel st).saves ∧
    st.jobs <+: (runLoop e fuel st).jobs ∧
    st.llmCalls ≤ (runLoop e fuel st).llmCalls := by
  induction fuel generalizing st with
  | zero =>
    exact ⟨List.prefix_refl _, List.prefix_refl _, List.prefix_refl _, le_refl _⟩
  | succ n ih =>
    rw [runLoop]
    cases hst : stepTurn e st with
    | halt r =>
      obtain ⟨h1, h2, h3, h4⟩ := stepTurn_halt_rel e st r hst
      refine ⟨h1, h2, h3, ?_⟩
      show st.llmCalls ≤ r.llmCalls
      omega
    | cont st' =>
      obtain ⟨h1, h2, h3, h4⟩ := stepTurn_cont_rel e st st' hst
      obtain ⟨g1, g2, g3, g4⟩ := ih st'
      refine ⟨h1.trans g1, h2.trans g2, h3.trans g3, ?_⟩
      show st.llmCalls ≤ (runLoop e n st').llmCalls
      omega

/-- With fuel remaining, the loop makes at least one further gateway
call. -/
theorem runLoop_calls_succ (e : Env) (fuel : Nat) (st : LoopState)
    (h : 1 ≤ fuel) :
    st.llmCalls + 1 ≤ (runLoop e fuel st).llmCalls := by
  obtain ⟨n, rfl⟩ : ∃ n, fuel = n + 1 :=
    ⟨fuel - 1, (Nat.succ_pred_eq_of_pos h).symm⟩
  rw [runLoop]
  cases hst : stepTurn e st with
  | halt r =>
    show st.llmCalls + 1 ≤ r.llmCalls
    exact le_of_eq (stepTurn_halt_rel e st r hst).2.2.2.symm
  | cont st' =>
    show st.llmCalls + 1 ≤ (runLoop e n st').llmCalls
    have h4 := (stepTurn_cont_rel e st st' hst).2.2.2
    have := (runLoop_mono e n st').2.2.2
    omega

/-- A nonempty prefix pins down the head of the longer list. -/
theorem head?_of_front {α : Type} {l l' : List α}
    (h : l <+: l') (hne : l ≠ []) : l'.head? = l.head? := by
  obtain ⟨t, rfl⟩ := h
  cases l with
  | nil => exact absurd rfl hne
  | cons a l => rfl

/-- A halting turn leaves at most the one freshly appended assistant
message beyond the last persisted snapshot. -/
theorem stepTurn_halt_lastSave (e : Env) (st : LoopState) (r : StepResult)
    (hst : stepTurn e st = .halt r)
    (h : st.saves.getLastD {} = st.conv) (hne : st.saves ≠ []) :
    r.saves ≠ [] ∧
    ∃ t, r.conv.messages = (r.saves.getLastD {}).messages ++ t ∧
      t.length ≤ 1 := by
  simp only [stepTurn] at hst
  split at hst
  · injection hst with hst
    subst hst
    refine ⟨by simp, [], ?_, by simp⟩
    simp only [List.getLastD_concat, List.append_nil]
  · split at hst
    · split at hst
      · exact absurd hst (by simp)
      · split at hst
        · injection hst with hst
          subst hst
          refine ⟨hne,
            [{ role := Role.assistant,
               content := some ((e.llm st.llmCalls).content.getD "") }],
            ?_, by simp⟩
          show (appendMsg st.conv _).messages = _
          rw [appendMsg_messages, h]
        · exact absurd hst (by simp)
    · injection hst with hst
      subst hst
      refine ⟨hne,
        [{ role := Role.assistant,
           content := some ((e.llm st.llmCalls).content.getD "") }],
        ?_, by simp⟩
      show (appendMsg st.conv _).messages = _
      rw [appendMsg_messages, h]

/-- A continuing turn restores the invariant that the in-memory
conversation is exactly the last persisted snapshot. -/
theorem stepTurn_cont_lastSave (e : Env) (st : LoopState) (st' : LoopState)
    (hst : stepTurn e st = .cont st') :
    st'.saves.getLastD {} = st'.conv ∧ st'.saves ≠ [] := by
  simp only [stepTurn] at hst
  split at hst
  · exact absurd hst (by simp)
  · split at hst
    · split at hst
      · injection hst with hst
        subst hst
        exact ⟨List.getLastD_concat _ _ _, by simp⟩
      · split at hst
        · exact absurd hst (by simp)
        · injection hst with hst
          subst hst
          exact ⟨List.getLastD_concat _ _ _, by simp⟩
    · exact absurd hst (by simp)

/-- Loop-level persistence bound: when the loop starts with its
conversation equal to the last persisted snapshot, it ends with at most
one unpersisted trailing message. -/
theorem runLoop_lastSave (e : Env) (fuel : Nat) (st : LoopState)
    (h : st.saves.getLastD {} = st.conv) (hne : st.saves ≠ []) :
    (runLoop e fuel st).saves ≠ [] ∧
    ∃ t, (runLoop e fuel st).conv.messages =
        ((runLoop e fuel st).saves.getLastD {}).messages ++ t ∧
      t.length ≤ 1 := by
  induction fuel generalizing st with
  | zero =>
    refine ⟨hne, [], ?_, by simp⟩
    show st.conv.messages = (st.saves.getLastD {}).messages ++ []
    rw [h, List.append_nil]
  | succ n ih =>
    rw [runLoop]
    cases hst : stepTurn e st with
    | halt r => exact stepTurn_halt_lastSave e st r hst h hne
    | cont st' =>
      obtain ⟨h', hne'⟩ := stepTurn_cont_lastSave e st st' hst
      exact ih st' h' hne'

/-- Appending a non-system message preserves "at most one system message,
always first". -/
theorem sysFirstOk_append (msgs : List Message) (m : Message)
    (h : sysFirstOk msgs = true) (hm : m.role ≠ Role.system) :
    sysFirstOk (msgs ++ [m]) = true := by
  cases msgs with
  | nil => simp [sysFirstOk, hm]
  | cons a t =>
    simp only [sysFirstOk, List.cons_append, List.drop_succ_cons,
      List.drop_zero, List.all_append] at h ⊢
    simp_all [hm]

/-- Appending a non-system message preserves the persisted-conversation
invariant. -/
theorem convOk_append (sid : String) (c : Conversation) (m : Message)
    (h : convOk sid c) (hm : m.role ≠ Role.system) :
    convOk sid (appendMsg c m) := by
  obtain ⟨h1, h2, h3⟩ := h
  exact ⟨sysFirstOk_append _ _ h1 hm, h2, by simp [appendMsg_messages]⟩

/-- A halting turn preserves the conversation invariant on both the
in-memory conversation and the persistence trace. -/
theorem stepTurn_halt_convOk (e : Env) (st : LoopState) (r : StepResult)
    (sid : String) (hst : stepTurn e st = .halt r)
    (hconv : convOk sid st.conv)
    (hs : ∀ c ∈ st.saves, convOk sid c) :
    convOk sid r.conv ∧ ∀ c ∈ r.saves, convOk sid c := by
  simp only [stepTurn] at hst
  split at hst
  · injection hst with hst
    subst hst
    refine ⟨convOk_append _ _ _ hconv (by simp), ?_⟩
    intro c hc
    rcases List.mem_append.mp hc with hc | hc
    · exact hs c hc
    · rcases List.mem_singleton.mp hc with rfl
      exact convOk_append _ _ _ hconv (by simp)
  · split at hst
    · split at hst
      · exact absurd hst (by simp)
      · split at hst
        · injection hst with hst
          subst hst
          exact ⟨convOk_append _ _ _ hconv (by simp), hs⟩
        · exact absurd hst (by simp)
    · injection hst with hst
      subst hst
      exact ⟨convOk_append _ _ _ hconv (by simp), hs⟩

/-- A continuing turn preserves the conversation invariant. -/
theorem stepTurn_cont_convOk (e : Env) (st : LoopState) (st' : LoopState)
    (sid : String) (hst : stepTurn e st = .cont st')
    (hconv : convOk sid st.conv)
    (hs : ∀ c ∈ st.saves, convOk sid c) :
    convOk sid st'.conv ∧ ∀ c ∈ st'.saves, convOk sid c := by
  simp only [stepTurn] at hst
  split at hst
  · exact absurd hst (by simp)
  · split at hst
    · split at hst
      · injection hst with hst
        subst hst
        refine ⟨convOk_append _ _ _ (convOk_append _ _ _ hconv (by simp))
            (by simp), ?_⟩
        intro c hc
        rcases List.mem_append.mp hc with hc | hc
        · exact hs c hc
        · rcases List.mem_singleton.mp hc with rfl
          exact convOk_append _ _ _ (convOk_append _ _ _ hconv (by simp))
            (by simp)
      · split at hst
        · exact absurd hst (by simp)
        · injection hst with hst
          subst hst
          refine ⟨convOk_append _ _ _ (convOk_append _ _ _ hconv (by simp))
              (by simp), ?_⟩
          intro c hc
          rcases List.mem_append.mp hc with hc | hc
          · exact hs c hc
          · rcases List.mem_singleton.mp hc with rfl
            exact convOk_append _ _ _ (convOk_append _ _ _ hconv (by simp))
              (by simp)
    · exact absurd hst (by simp)

/-- The whole loop preserves the conversation invariant. -/
theorem runLoop_convOk (e : Env) (fuel : Nat) (st : LoopState)
    (sid : String) (hconv : convOk sid st.conv)
    (hs : ∀ c ∈ st.saves, convOk sid c) :
    convOk sid (runLoop e fuel st).conv ∧
    ∀ c ∈ (runLoop e fuel st).saves, convOk sid c := by
  induction fuel generalizing st with
  | zero => exact ⟨hconv, hs⟩
  | succ n ih =>
    rw [runLoop]
    cases hst : stepTurn e st with
    | halt r => exact stepTurn_halt_convOk e st r sid hst hconv hs
    | cont st' =>
      obtain ⟨h1, h2⟩ := stepTurn_cont_convOk e st st' sid hst hconv hs
      exact ih st' h1 h2

/-- `startsWithChars (l ++ t) l` always holds. -/
theorem startsWithChars_append_self (l t : List Char) :
    startsWithChars (l ++ t) l = true := by
  induction l with
  | nil => simp [startsWithChars]
  | cons c cs ih => simp [startsWithChars, ih]

/-- A substring of the tail is a substring of the whole. -/
theorem containsSub_of_right (x r p : List Char)
    (h : containsSub r p = true) : containsSub (x ++ r) p = true := by
  induction x with
  | nil => exact h
  | cons c cs ih =>
    show (startsWithChars (c :: (cs ++ r)) p || containsSub (cs ++ r) p) = true
    rw [ih]
    simp

/-- Every list contains the pattern it starts with. -/
theorem containsSub_append_self (p t : List Char) :
    containsSub (p ++ t) p = true := by
  cases p with
  | nil =>
    cases t with
    | nil => rfl
    | cons c cs => show (startsWithChars _ [] || _) = true; simp [startsWithChars]
  | cons c cs =>
    show (startsWithChars ((c :: cs) ++ t) (c :: cs) || _) = true
    rw [startsWithChars_append_self]
    simp

/-- A string is contained, verbatim, in any enclosing concatenation. -/
theorem strContains_middle (a b c : String) :
    strContains (a ++ b ++ c) b = true := by
  show containsSub (a ++ b ++ c).data b.data = true
  have hd : (a ++ b ++ c).data = a.data ++ (b.data ++ c.data) := by
    simp [String.data_append, List.append_assoc]
  rw [hd]
  exact containsSub_of_right _ _ _ (containsSub_append_self _ _)

/-- Looking up an untouched key commutes with setting another key. -/
theorem storeGet_set_ne (st : Store) (k sid : String) (c : Conversation)
    (h : k ≠ sid) : storeGet (storeSet st k c) sid = storeGet st sid := by
  induction st with
  | nil => simp [storeGet, storeSet, List.find?, h]
  | cons p t ih =>
    by_cases hk : p.1 = k
    · obtain ⟨p1, p2⟩ := p
      simp only at hk
      subst hk
      simp [storeGet, storeSet, List.find?, h]
    · obtain ⟨p1, p2⟩ := p
      by_cases hs : p1 = sid
      · subst hs
        simp [storeGet, storeSet, List.find?, hk]
      · simp only [storeGet, storeSet, List.find?] at ih ⊢
        simp [hk, hs, ih]

/-- A key absent from a batch of saves stays unreadable. -/
theorem storeGet_foldl_untouched (ops : List (String × Conversation))
    (sid : String) (h : sid ∉ ops.map (fun p => p.1)) (st : Store)
    (hst : storeGet st sid = none) :
    storeGet (ops.foldl (fun s p => save_conversation s p.1 p.2) st) sid
      = none := by
  induction ops generalizing st with
  | nil => exact hst
  | cons p t ih =>
    simp only [List.map_cons, List.mem_cons, not_or] at h
    refine ih h.2 _ ?_
    show storeGet (storeSet st p.1 p.2) sid = none
    rw [storeGet_set_ne st p.1 sid p.2 (fun hq => h.1 hq.symm)]
    exact hst

/-! ## Regex-scan helper lemmas (for the `_parse_action` claims) -/

theorem takeWhile_append_stop {α : Type} (p : α → Bool) (xs : List α)
    (y : α) (ys : List α) (hxs : ∀ c ∈ xs, p c = true) (hy : p y = false) :
    (xs ++ y :: ys).takeWhile p = xs := by
  induction xs with
  | nil => simp [List.takeWhile_cons, hy]
  | cons b t ih =>
    have hb := hxs b (.head _)
    simp [List.takeWhile_cons, hb, ih (fun c hc => hxs c (.tail _ hc))]

theorem takeWhile_all {α : Type} (p : α → Bool) (l : List α)
    (h : ∀ c ∈ l, p c = true) : l.takeWhile p = l := by
  induction l with
  | nil => rfl
  | cons b t ih =>
    simp [List.takeWhile_cons, h b (.head _),
      ih (fun c hc => h c (.tail _ hc))]

theorem dropWhile_all_false {α : Type} (p : α → Bool) (l : List α)
    (h : ∀ c ∈ l, p c = false) : l.dropWhile p = l := by
  cases l with
  | nil => rfl
  | cons b t => simp [List.dropWhile_cons, h b (.head _)]

/-- Word characters of the action regex are never regex whitespace. -/
theorem wordChar_not_space (c : Char) (h : isWordChar c = true) :
    pyIsSpace c = false := by
  by_contra hf
  rw [Bool.not_eq_false] at hf
  simp only [pyIsSpace, Bool.or_eq_true, decide_eq_true_eq] at hf
  rcases hf with ((((rfl | rfl) | rfl) | rfl) | rfl) | rfl <;>
    exact absurd h (by decide)

/-- `str.strip()` of whitespace-free text is the identity. -/
theorem pyStrip_no_space (s : String) (h : ∀ c ∈ s.data, pyIsSpace c = false) :
    pyStrip s = s := by
  unfold pyStrip
  rw [dropWhile_all_false _ _ h,
    dropWhile_all_false _ _ (fun c hc => h c (List.mem_reverse.mp hc)),
    List.reverse_reverse]

/-- A successful anchored match at the head settles the whole search. -/
theorem findMatch_head (l : List Char) (r : String × String)
    (h : tryMatchAt l = some r) : findMatch l = some r := by
  cases l with
  | nil =>
    have : tryMatchAt ([] : List Char) = none := rfl
    rw [this] at h
    exact Option.noConfusion h
  | cons c t => simp [findMatch, h]

/-- Text without the literal `Action:` never matches. -/
theorem findMatch_eq_none (l : List Char)
    (h : containsSub l "Action:".data = false) : findMatch l = none := by
  induction l with
  | nil => rfl
  | cons c t ih =>
    have h2 : (startsWithChars (c :: t) "Action:".data
        || containsSub t "Action:".data) = false := h
    rw [Bool.or_eq_false_iff] at h2
    have htm : tryMatchAt (c :: t) = none := by
      simp [tryMatchAt, h2.1]
    simp [findMatch, htm, ih h2.2]

/-- Anchored match of `Action:\s*(\w+)\((.*)\)` on a well-shaped action
text: the tool name is the word after the marker and the argument group is
everything up to the `)` that closes the line (the line either ends the
text or is terminated by a newline). -/
theorem tryMatchAt_shape (n a : String) (tail : List Char)
    (hn : n ≠ "") (hw : ∀ c ∈ n.data, isWordChar c = true)
    (ha : ∀ c ∈ a.data, c ≠ ')' ∧ c ≠ '\n')
    (htail : tail = [] ∨ ∃ r, tail = '\n' :: r) :
    tryMatchAt ("Action: ".data ++ (n.data ++ ('(' :: (a.data ++ ')' :: tail))))
      = some (n, a) := by
  obtain ⟨c0, n', hn0⟩ : ∃ c0 n', n.data = c0 :: n' := by
    cases n with
    | mk d =>
      cases d with
      | nil => exact absurd rfl hn
      | cons c0 n' => exact ⟨c0, n', rfl⟩
  have hw0 : isWordChar c0 = true := hw c0 (by rw [hn0]; exact .head _)
  have hsplit : ("Action: ".data : List Char) = "Action:".data ++ [' '] := rfl
  unfold tryMatchAt
  rw [hsplit, List.append_assoc, startsWithChars_append_self]
  simp only [if_true]
  have hdrop7 : (("Action:".data ++
      ([' '] ++ (n.data ++ ('(' :: (a.data ++ ')' :: tail))))).drop 7) =
      [' '] ++ (n.data ++ ('(' :: (a.data ++ ')' :: tail))) := by
    rw [show (7 : Nat) = ("Action:".data : List Char).length from rfl]
    exact List.drop_left _ _
  rw [hdrop7, hn0]
  have hws : (([' '] ++ (c0 :: n' ++ ('(' :: (a.data ++ ')' :: tail)))).dropWhile
      pyIsSpace) = c0 :: n' ++ ('(' :: (a.data ++ ')' :: tail)) := by
    show List.dropWhile pyIsSpace
        (' ' :: (c0 :: (n' ++ '(' :: (a.data ++ ')' :: tail)))) =
      c0 :: (n' ++ '(' :: (a.data ++ ')' :: tail))
    rw [List.dropWhile_cons, if_pos (show pyIsSpace ' ' = true from rfl),
      List.dropWhile_cons, wordChar_not_space c0 hw0]
    simp
  rw [hws]
  have htk : ((c0 :: n' ++ ('(' :: (a.data ++ ')' :: tail))).takeWhile
      isWordChar) = c0 :: n' := by
    have := takeWhile_append_stop isWordChar (c0 :: n') '('
      (a.data ++ ')' :: tail) (fun c hc => hw c (by rw [hn0]; exact hc))
      (by decide)
    exact this
  rw [htk]
  have hdropn : ((c0 :: n' ++ ('(' :: (a.data ++ ')' :: tail))).drop
      (c0 :: n').length) = '(' :: (a.data ++ ')' :: tail) := by
    have := List.drop_left (c0 :: n') ('(' :: (a.data ++ ')' :: tail))
    exact this
  simp only [hdropn]
  have hline : ((a.data ++ ')' :: tail).takeWhile (fun c => c ≠ '\n')) =
      a.data ++ [')'] := by
    rcases htail with rfl | ⟨r, rfl⟩
    · exact takeWhile_all _ _ (by
        intro c hc
        rcases List.mem_append.mp hc with hc | hc
        · simpa using (ha c hc).2
        · rcases List.mem_singleton.mp hc with rfl
          decide)
    · have := takeWhile_append_stop (fun c => decide (c ≠ '\n'))
        (a.data ++ [')']) '\n' r
        (by
          intro c hc
          rcases List.mem_append.mp hc with hc | hc
          · simpa using (ha c hc).2
          · rcases List.mem_singleton.mp hc with rfl
            decide)
        (by decide)
      rw [← this]
      congr 1
      simp
  rw [hline]
  have hparen : dropToParen (a.data ++ [')']).reverse = some a.data := by
    simp [List.reverse_append, dropToParen]
  rw [hparen, ← hn0]

/-! ## Claims -/

/-- C1: the specification claims that `run_conversation_step` returns
exactly one assistant-visible `Message` and never raises, whatever the
model returns and however tools behave (unknown names included).  In the
code, any turn whose parsed action is outside the async set reaches
`tool_registry.execute(tool_name=..., conversation=..., kwargs=...)`,
whose signature `execute(self, tool_name, kwargs)` rejects the
`conversation` keyword: the step raises `TypeError` — here exhibited with
a gateway that requests an unknown tool name on its first turn. -/
theorem C1_step_raises_on_tool_request :
    (run_conversation_step envUnknownTool "s1" "hi" {}).outcome =
      .error conversationKwErr := rfl

/-- C2 counterexample: with a scripted gateway whose first response
requests the async-set tool `optimize_structure_with_mace` and whose
second response is `Final Answer: done`, the step makes two gateway calls
— not one — and the returned message is `done`, which does not contain the
job id: async dispatch is not turn-terminal in this code. -/
theorem C2_counterexample :
    (run_conversation_step envAsyncTool "s1" "hi" {}).llmCalls = 2 ∧
    (run_conversation_step envAsyncTool "s1" "hi" {}).outcome =
      .ok (mkAsst "done") ∧
    strContains "done" "TASK-1" = false :=
  ⟨rfl, by rfl, rfl⟩

/-- C2 amended: when the first model response requests an async-set tool,
the job is submitted out-of-band (it heads the submission trace), the
synthesized tool message — whose content carries the job id verbatim — is
stringified into a user-role `Observation: ...` message appended to the
log, and the loop continues: at least one further gateway call follows,
so the step does not return after the single call. -/
theorem C2_amended (e : Env) (sid input : String) (loaded : Conversation)
    (h : e.llm 0 = mkAsst "Action: optimize_structure_with_mace()") :
    2 ≤ (run_conversation_step e sid input loaded).llmCalls ∧
    (run_conversation_step e sid input loaded).jobs.head? =
      some ("optimize_structure_with_mace", []) ∧
    ({ role := Role.user,
       content := some ("Observation: " ++ messageStr
         { role := Role.tool,
           content := some (asyncContent "optimize_structure_with_mace"
             (e.taskIds 0)) }) } : Message)
      ∈ (run_conversation_step e sid input loaded).conv.messages ∧
    strContains (asyncContent "optimize_structure_with_mace" (e.taskIds 0))
      (e.taskIds 0) = true := by
  have hstep : stepTurn e
      { conv := initialConv e sid input loaded,
        saves := [initialConv e sid input loaded], llmCalls := 0, jobs := [] } =
      .cont { conv := appendMsg
                (appendMsg (initialConv e sid input loaded)
                  (mkAsst "Action: optimize_structure_with_mace()"))
                { role := Role.user,
                  content := some ("Observation: " ++ messageStr
                    { role := Role.tool,
                      content := some (asyncContent
                        "optimize_structure_with_mace" (e.taskIds 0)) }) },
              saves := [initialConv e sid input loaded,
                appendMsg
                  (appendMsg (initialConv e sid input loaded)
                    (mkAsst "Action: optimize_structure_with_mace()"))
                  { role := Role.user,
                    content := some ("Observation: " ++ messageStr
                      { role := Role.tool,
                        content := some (asyncContent
                          "optimize_structure_with_mace" (e.taskIds 0)) }) }],
              llmCalls := 1,
              jobs := [("optimize_structure_with_mace", [])] } := by
    simp only [stepTurn, h, mkAsst]
    rfl
  have hrun : run_conversation_step e sid input loaded =
      runLoop e 9
        { conv := appendMsg
            (appendMsg (initialConv e sid input loaded)
              (mkAsst "Action: optimize_structure_with_mace()"))
            { role := Role.user,
              content := some ("Observation: " ++ messageStr
                { role := Role.tool,
                  content := some (asyncContent
                    "optimize_structure_with_mace" (e.taskIds 0)) }) },
          saves := [initialConv e sid input loaded,
            appendMsg
              (appendMsg (initialConv e sid input loaded)
                (mkAsst "Action: optimize_structure_with_mace()"))
              { role := Role.user,
                content := some ("Observation: " ++ messageStr
                  { role := Role.tool,
                    content := some (asyncContent
                      "optimize_structure_with_mace" (e.taskIds 0)) }) }],
          llmCalls := 1,
          jobs := [("optimize_structure_with_mace", [])] } := by
    show runLoop e MAX_TURNS
      { conv := initialConv e sid input loaded,
        saves := [initialConv e sid input loaded],
        llmCalls := 0, jobs := [] } = _
    rw [show MAX_TURNS = 9 + 1 from rfl, runLoop, hstep]
  rw [hrun]
  refine ⟨?_, ?_, ?_, ?_⟩
  · refine le_trans ?_ (runLoop_calls_succ e 9 _ (by norm_num))
    exact Nat.le_refl _
  · rw [head?_of_front (runLoop_mono e 9 _).2.2.1 (by simp)]
    rfl
  · exact (runLoop_mono e 9 _).1.subset (by simp [appendMsg_messages])
  · exact strContains_middle (asyncPre "optimize_structure_with_mace")
      (e.taskIds 0) asyncPost

/-- C2 witness: the amended statement at the concrete async script. -/
theorem C2_witness :
    2 ≤ (run_conversation_step envAsyncTool "s1" "hi" {}).llmCalls ∧
    (run_conversation_step envAsyncTool "s1" "hi" {}).jobs.head? =
      some ("optimize_structure_with_mace", []) ∧
    ({ role := Role.user,
       content := some ("Observation: " ++ messageStr
         { role := Role.tool,
           content := some (asyncContent "optimize_structure_with_mace"
             (envAsyncTool.taskIds 0)) }) } : Message)
      ∈ (run_conversation_step envAsyncTool "s1" "hi" {}).conv.messages ∧
    strContains
      (asyncContent "optimize_structure_with_mace" (envAsyncTool.taskIds 0))
      (envAsyncTool.taskIds 0) = true :=
  C2_amended envAsyncTool "s1" "hi" {} rfl

/-- C3 counterexample: `ToolRegistry.execute` on an unregistered name does
not yield textual failure content — it raises `ValueError`. -/
theorem C3_counterexample :
    registryExecute [] (fun _ => .ok "ignored") "missing_tool" =
      .error (.valueError
        ("Tool " ++ sq ++ "missing_tool" ++ sq ++ " not found.")) := rfl

/-- C3 amended: `ToolRegistry.execute` raises `ValueError` for an
unregistered tool name, forwards a registered name to the tool and lets
any fault propagate unconverted; moreover the orchestrator's synchronous
call site itself always raises `TypeError` (unexpected keyword
`conversation`) before the registry body can run, whatever the call would
have returned. -/
theorem C3_amended (tools : List ToolInfo)
    (impl : String → Except PyErr String) (nm : String)
    (body : Except PyErr String) :
    (tools.any (fun t => t.name = nm) = false →
      registryExecute tools impl nm =
        .error (.valueError ("Tool " ++ sq ++ nm ++ sq ++ " not found."))) ∧
    (tools.any (fun t => t.name = nm) = true →
      registryExecute tools impl nm = impl nm) ∧
    callWithKwargs registryExecuteParams registryCallKwargs body =
      .error conversationKwErr := by
  refine ⟨fun h => ?_, fun h => ?_, rfl⟩
  · simp [registryExecute, h]
  · simp [registryExecute, h]

/-- C3 witness: the amended statement at concrete inputs — an unknown name
raises `ValueError`, and a registered tool's raised fault propagates. -/
theorem C3_witness :
    registryExecute [] (fun _ => .ok "r") "nope" =
      .error (.valueError ("Tool " ++ sq ++ "nope" ++ sq ++ " not found.")) ∧
    registryExecute [{ name := "t", description := "d" }]
        (fun _ => .error (.otherError "boom")) "t" =
      .error (.otherError "boom") :=
  ⟨(C3_amended [] (fun _ => .ok "r") "nope" (.ok "r")).1 (by decide),
   (C3_amended [{ name := "t", description := "d" }]
      (fun _ => .error (.otherError "boom")) "t" (.ok "x")).2.1 (by decide)⟩

/-- C4 counterexample: with the scripted gateway that first requests the
registered sync tool `tavily_search` and would answer `Final Answer: X`
next, the step does not return a Message with content `X` — it raises
`TypeError` at the tool execution. -/
theorem C4_counterexample :
    (run_conversation_step envSyncTool "s1" "hi" {}).outcome =
      .error conversationKwErr := rfl

/-- C4 amended: on that script the step faults while executing the known
sync tool (the registry call rejects the `conversation` keyword), so only
one gateway call happens, the second scripted response is never consumed,
the in-memory log is system, user, assistant(tool-request), and the only
persisted snapshot is system, user. -/
theorem C4_amended (e : Env) (sid input : String)
    (h : e.llm 0 = mkAsst "Action: tavily_search(query=\"x\")") :
    (run_conversation_step e sid input {}).outcome =
      .error conversationKwErr ∧
    (run_conversation_step e sid input {}).llmCalls = 1 ∧
    (run_conversation_step e sid input {}).conv.messages.map
      (fun m => m.role) = [Role.system, Role.user, Role.assistant] ∧
    (run_conversation_step e sid input {}).saves.map
      (fun c => c.messages.map (fun m => m.role)) =
      [[Role.system, Role.user]] := by
  have hstep : stepTurn e
      { conv := initialConv e sid input {},
        saves := [initialConv e sid input {}], llmCalls := 0, jobs := [] } =
      .halt { outcome := .error conversationKwErr,
              conv := appendMsg (initialConv e sid input {})
                (mkAsst "Action: tavily_search(query=\"x\")"),
              saves := [initialConv e sid input {}], llmCalls := 1,
              jobs := [] } := by
    simp only [stepTurn, h, mkAsst]
    rfl
  have hrun : run_conversation_step e sid input {} =
      { outcome := .error conversationKwErr,
        conv := appendMsg (initialConv e sid input {})
          (mkAsst "Action: tavily_search(query=\"x\")"),
        saves := [initialConv e sid input {}], llmCalls := 1,
        jobs := [] } := by
    show runLoop e MAX_TURNS
      { conv := initialConv e sid input {},
        saves := [initialConv e sid input {}],
        llmCalls := 0, jobs := [] } = _
    rw [show MAX_TURNS = 9 + 1 from rfl, runLoop, hstep]
  rw [hrun]
  exact ⟨rfl, rfl, rfl, rfl⟩

/-- C4 witness: the amended statement at the concrete scripted gateway. -/
theorem C4_witness :
    (run_conversation_step envSyncTool "s1" "hi" {}).outcome =
      .error conversationKwErr ∧
    (run_conversation_step envSyncTool "s1" "hi" {}).llmCalls = 1 ∧
    (run_conversation_step envSyncTool "s1" "hi" {}).conv.messages.map
      (fun m => m.role) = [Role.system, Role.user, Role.assistant] ∧
    (run_conversation_step envSyncTool "s1" "hi" {}).saves.map
      (fun c => c.messages.map (fun m => m.role)) =
      [[Role.system, Role.user]] :=
  C4_amended envSyncTool "s1" "hi" rfl

/-- C9 counterexample: seeding is keyed on a falsy `session_id`, not on an
empty log.  With the (transport-accepted) empty session id, the second
step re-seeds the system prompt into a non-empty log: the persisted log
after two steps is system, user, system, user — two system messages, the
second not first. -/
theorem C9_counterexample :
    (((run_conversation_step envStalled "" "hi2"
        ((run_conversation_step envStalled "" "hi" {}).saves.getLastD {})).saves.getLastD
      {}).messages.map (fun m => m.role)) =
      [Role.system, Role.user, Role.system, Role.user] := rfl

/-- C9 amended: for a non-empty session id, and a loaded conversation that
is either fresh or one previously persisted for this session (carrying its
session id, a non-empty log and a well-formed system prefix), the INIT
seeding condition coincides with log-emptiness, and both the resulting
conversation and every snapshot the step persists keep the invariant: at
most one system message, always first, with the session id set. -/
theorem C9_amended (e : Env) (sid input : String) (loaded : Conversation)
    (hsid : sid ≠ "")
    (hload : loaded = {} ∨ convOk sid loaded) :
    sessionIdFalsy loaded.session_id = loaded.messages.isEmpty ∧
    convOk sid (run_conversation_step e sid input loaded).conv ∧
    ∀ c ∈ (run_conversation_step e sid input loaded).saves, convOk sid c := by
  have hinit : convOk sid (initialConv e sid input loaded) := by
    rcases hload with rfl | hok
    · refine ⟨?_, rfl, ?_⟩
      · simp [initialConv, sessionIdFalsy, appendMsg_messages, sysFirstOk]
      · simp [initialConv, appendMsg_messages]
    · have hfalsy : sessionIdFalsy loaded.session_id = false := by
        simp [sessionIdFalsy, hok.2.1, hsid]
      have : initialConv e sid input loaded =
          appendMsg loaded { role := Role.user, content := some input } := by
        simp [initialConv, hfalsy]
      rw [this]
      exact convOk_append sid loaded _ hok (by simp)
  refine ⟨?_, ?_⟩
  · rcases hload with rfl | hok
    · rfl
    · have h3 := hok.2.2
      rw [hok.2.1]
      cases hm : loaded.messages with
      | nil => exact absurd hm h3
      | cons a t => simp [sessionIdFalsy, hsid]
  · exact runLoop_convOk e MAX_TURNS
      { conv := initialConv e sid input loaded,
        saves := [initialConv e sid input loaded],
        llmCalls := 0, jobs := [] } sid hinit
      (by
        intro c hc
        rcases List.mem_singleton.mp hc with rfl
        exact hinit)

/-- C9 witness: the amended statement at a fresh session with a non-empty
id and the stalling gateway. -/
theorem C9_witness :
    sessionIdFalsy ({} : Conversation).session_id =
      ({} : Conversation).messages.isEmpty ∧
    convOk "s1" (run_conversation_step envStalled "s1" "hi" {}).conv ∧
    ∀ c ∈ (run_conversation_step envStalled "s1" "hi" {}).saves,
      convOk "s1" c :=
  C9_amended envStalled "s1" "hi" {} (by decide) (Or.inl rfl)

/-- C10: the background task can never reach its success path.  Its
`tool_registry.execute(tool_name=..., conversation=..., kwargs=...)` call
raises `TypeError` at keyword binding for every input, so the task always
re-raises, never appends an observation and never saves — the claimed
append-and-re-persist behaviour on success is dead code. -/
theorem C10_async_task_always_faults (regTools : List ToolInfo)
    (impl : String → List (String × PyValue) → Except PyErr String)
    (loaded : Conversation) (sid nm : String)
    (args : List (String × PyValue)) :
    (execute_tool_task regTools impl loaded sid nm args).outcome =
      .error conversationKwErr ∧
    (execute_tool_task regTools impl loaded sid nm args).saves = [] :=
  ⟨rfl, rfl⟩

/-- C5 counterexample: with a gateway that always returns a non-final,
non-actionable response, the step terminates after a single gateway call
with the clarification message — not within-budget looping to the fixed
timeout message. -/
theorem C5_counterexample :
    (run_conversation_step envStalled "s1" "hi" {}).outcome =
      .ok (mkAsst clarificationText) ∧
    clarificationText ≠ timeoutText ∧
    (run_conversation_step envStalled "s1" "hi" {}).llmCalls = 1 :=
  ⟨rfl, by decide, rfl⟩

/-- C5 amended: when the gateway's first response carries neither the
final-answer marker nor a parsable action, the step terminates after
exactly one gateway call (it never loops to the budget) and returns the
fixed clarification message; that message is not appended to the log — the
log ends with the model's own response — and nothing beyond the INIT
snapshot is persisted.  The fixed timeout message is returned, likewise
unappended, only when all ten turns produce actions. -/
theorem C5_amended (e : Env) (sid input : String) (loaded : Conversation)
    (h1 : strContains ((e.llm 0).content.getD "") finalMarker = false)
    (h2 : parse_action ((e.llm 0).content.getD "") = none) :
    (run_conversation_step e sid input loaded).outcome =
      .ok (mkAsst clarificationText) ∧
    (run_conversation_step e sid input loaded).llmCalls = 1 ∧
    (run_conversation_step e sid input loaded).saves =
      [initialConv e sid input loaded] ∧
    (run_conversation_step e sid input loaded).conv.messages =
      (initialConv e sid input loaded).messages ++
        [mkAsst ((e.llm 0).content.getD "")] := by
  have hstep : stepTurn e
      { conv := initialConv e sid input loaded,
        saves := [initialConv e sid input loaded], llmCalls := 0, jobs := [] } =
      .halt { outcome := .ok (mkAsst clarificationText),
              conv := appendMsg (initialConv e sid input loaded)
                (mkAsst ((e.llm 0).content.getD "")),
              saves := [initialConv e sid input loaded], llmCalls := 1,
              jobs := [] } := by
    simp only [stepTurn, h1, h2, mkAsst]
    rfl
  have hrun : run_conversation_step e sid input loaded =
      { outcome := .ok (mkAsst clarificationText),
        conv := appendMsg (initialConv e sid input loaded)
          (mkAsst ((e.llm 0).content.getD "")),
        saves := [initialConv e sid input loaded], llmCalls := 1,
        jobs := [] } := by
    show runLoop e MAX_TURNS
      { conv := initialConv e sid input loaded,
        saves := [initialConv e sid input loaded],
        llmCalls := 0, jobs := [] } = _
    rw [show MAX_TURNS = 9 + 1 from rfl, runLoop, hstep]
  rw [hrun]
  exact ⟨rfl, rfl, rfl, rfl⟩

/-- C5 witness: the amended statement with the concrete always-stalling
gateway. -/
theorem C5_witness :
    (run_conversation_step envStalled "s1" "hi" {}).outcome =
      .ok (mkAsst clarificationText) ∧
    (run_conversation_step envStalled "s1" "hi" {}).llmCalls = 1 ∧
    (run_conversation_step envStalled "s1" "hi" {}).saves =
      [initialConv envStalled "s1" "hi" {}] ∧
    (run_conversation_step envStalled "s1" "hi" {}).conv.messages =
      (initialConv envStalled "s1" "hi" {}).messages ++
        [mkAsst ((envStalled.llm 0).content.getD "")] :=
  C5_amended envStalled "s1" "hi" {} (by decide) (by decide)

/-- C6 counterexample: on the stalled path the assistant message appended
to the log is not persisted before the step returns — the in-memory log
has three messages while the last saved snapshot has two. -/
theorem C6_counterexample :
    (run_conversation_step envStalled "s1" "hi" {}).conv.messages.length = 3 ∧
    ((run_conversation_step envStalled "s1" "hi" {}).saves.getLastD
      {}).messages.length = 2 :=
  ⟨rfl, rfl⟩

/-- C6 amended: the conversation is persisted synchronously after the
user-turn append (the first snapshot saved is exactly the INIT result) and
after every observation append and final-answer append — but a stalled or
faulting turn may leave exactly the one freshly appended assistant message
unpersisted, and the returned clarification/timeout messages are never
appended at all. -/
theorem C6_amended (e : Env) (sid input : String) (loaded : Conversation) :
    (run_conversation_step e sid input loaded).saves.head? =
      some (initialConv e sid input loaded) ∧
    ∃ t, (run_conversation_step e sid input loaded).conv.messages =
        ((run_conversation_step e sid input loaded).saves.getLastD
          {}).messages ++ t ∧
      t.length ≤ 1 := by
  constructor
  · have hpre := (runLoop_mono e MAX_TURNS
      { conv := initialConv e sid input loaded,
        saves := [initialConv e sid input loaded],
        llmCalls := 0, jobs := [] }).2.1
    have := head?_of_front hpre (by simp)
    exact this
  · exact (runLoop_lastSave e MAX_TURNS
      { conv := initialConv e sid input loaded,
        saves := [initialConv e sid input loaded],
        llmCalls := 0, jobs := [] } rfl (by simp)).2

/-- C7 counterexample: a value followed by a space and a comma falls back
to the raw captured string with only quote characters stripped — the
trailing whitespace is kept, so the fallback is not the trimmed string. -/
theorem C7_counterexample :
    parse_action "Action: f(a=x , b=y)" =
      some ("f", [("a", PyValue.vStr "x "), ("b", PyValue.vStr "y")]) ∧
    PyValue.vStr "x " ≠ PyValue.vStr (pyStrip "x ") :=
  ⟨rfl, by decide⟩

/-- C7 amended: text without the `Action:` literal yields no action; for a
well-shaped action line, `re.search`'s leftmost match wins — whatever
follows on later lines (further actions included) is ignored, and the tool
name is the first action's; each value is parsed as a JSON literal
(number, boolean, quoted string) first and on failure falls back to the
raw captured string with surrounding quote characters stripped (not
whitespace-trimmed). -/
theorem C7_amended :
    (∀ s : String, containsSub s.data "Action:".data = false →
      parse_action s = none) ∧
    (∀ n a rest : String, n ≠ "" →
      (∀ c ∈ n.data, isWordChar c = true) →
      (∀ c ∈ a.data, c ≠ ')' ∧ c ≠ '\n') →
      parse_action ("Action: " ++ n ++ "(" ++ a ++ ")\n" ++ rest) =
        parse_action ("Action: " ++ n ++ "(" ++ a ++ ")") ∧
      ∃ args, parse_action ("Action: " ++ n ++ "(" ++ a ++ ")") =
        some (n, args)) ∧
    (∀ v : String, pyJsonLoads v = none →
      parseValue v = .vStr (stripQuoteChars v)) ∧
    parseValue "3" = .vNum "3" ∧
    parseValue "true" = .vBool true ∧
    parseValue "\"hi\"" = .vStr "hi" ∧
    parseValue "\x27hi\x27" = .vStr "hi" := by
  refine ⟨?_, ?_, ?_, rfl, rfl, rfl, rfl⟩
  · intro s h
    simp [parse_action, findMatch_eq_none s.data h]
  · intro n a rest hn hw ha
    have hd1 : ("Action: " ++ n ++ "(" ++ a ++ ")\n" ++ rest).data =
        "Action: ".data ++
          (n.data ++ ('(' :: (a.data ++ ')' :: ('\n' :: rest.data)))) := by
      simp [String.data_append]
    have hd2 : ("Action: " ++ n ++ "(" ++ a ++ ")").data =
        "Action: ".data ++
          (n.data ++ ('(' :: (a.data ++ ')' :: ([] : List Char)))) := by
      simp [String.data_append]
    have hm1 : findMatch ("Action: " ++ n ++ "(" ++ a ++ ")\n" ++ rest).data =
        some (n, a) := by
      rw [hd1]
      exact findMatch_head _ _
        (tryMatchAt_shape n a _ hn hw ha (Or.inr ⟨rest.data, rfl⟩))
    have hm2 : findMatch ("Action: " ++ n ++ "(" ++ a ++ ")").data =
        some (n, a) := by
      rw [hd2]
      exact findMatch_head _ _
        (tryMatchAt_shape n a _ hn hw ha (Or.inl rfl))
    constructor
    · unfold parse_action
      rw [hm1, hm2]
    · refine ⟨if pyStrip a = "" then [] else
        buildArgs (argsFindall (pyStrip a).data.length (pyStrip a).data), ?_⟩
      have hstripn : pyStrip n = n :=
        pyStrip_no_space n (fun c hc => wordChar_not_space c (hw c hc))
      simp only [parse_action, hm2, hstripn]
      by_cases hsa : pyStrip a = ""
      · simp [hsa]
      · simp [hsa]
  · intro v h
    simp [parseValue, h]

/-- C7 witness: the amended statement at concrete inputs — no `Action:`
literal means no action; the first of two stacked actions is honored; a
non-JSON value falls back to quote-stripping. -/
theorem C7_witness :
    parse_action "Thought: no tool is needed here." = none ∧
    parse_action
        ("Action: " ++ "f" ++ "(" ++ "q=1" ++ ")\n" ++ "Action: g(r=2)") =
      parse_action ("Action: " ++ "f" ++ "(" ++ "q=1" ++ ")") ∧
    (∃ args, parse_action ("Action: " ++ "f" ++ "(" ++ "q=1" ++ ")") =
      some ("f", args)) ∧
    parseValue "zz" = .vStr (stripQuoteChars "zz") :=
  ⟨C7_amended.1 "Thought: no tool is needed here." (by decide),
   (C7_amended.2.1 "f" "q=1" "Action: g(r=2)" (by decide) (by decide)
     (by decide)).1,
   (C7_amended.2.1 "f" "q=1" "Action: g(r=2)" (by decide) (by decide)
     (by decide)).2,
   C7_amended.2.2.1 "zz" (by decide)⟩

/-- C8: `get_conversation` never errors — an unreachable store, an absent
key, an empty payload and an undeserializable payload all yield a fresh
empty `Conversation` — and a session id that was never saved loads as the
empty `Conversation` no matter what other sessions were saved. -/
theorem C8_load_total_and_isolated
    (deser : String → Except PyErr Conversation) (raw : String) (em : PyErr)
    (sid : String) (ops : List (String × Conversation)) :
    get_conversation .errored deser = {} ∧
    get_conversation .absent deser = {} ∧
    get_conversation (.found "") deser = {} ∧
    (deser raw = .error em → get_conversation (.found raw) deser = {}) ∧
    (sid ∉ ops.map (fun p => p.1) →
      load_conversation
        (ops.foldl (fun s p => save_conversation s p.1 p.2) []) sid = {}) := by
  refine ⟨rfl, rfl, rfl, fun h => ?_, fun h => ?_⟩
  · by_cases hr : raw = ""
    · subst hr; rfl
    · simp [get_conversation, hr, h]
  · rw [show load_conversation
        (ops.foldl (fun s p => save_conversation s p.1 p.2) []) sid =
        (storeGet (ops.foldl (fun s p => save_conversation s p.1 p.2) []) sid).getD {}
      from rfl]
    rw [storeGet_foldl_untouched ops sid h [] rfl]
    rfl

/-- C8 witness: the deserialization-failure and never-saved cases at
concrete inputs. -/
theorem C8_witness :
    get_conversation (.found "xx") (fun _ => .error (.otherError "bad")) = {} ∧
    load_conversation
      ([("a", ({} : Conversation)), ("b", ({} : Conversation))].foldl
        (fun s p => save_conversation s p.1 p.2) []) "c" = {} :=
  ⟨(C8_load_total_and_isolated (fun _ => .error (.otherError "bad")) "xx"
      (.otherError "bad") "c" []).2.2.2.1 rfl,
   (C8_load_total_and_isolated (fun _ => .error (.otherError "bad")) "xx"
      (.otherError "bad") "c" [("a", {}), ("b", {})]).2.2.2.2 (by decide)⟩

end Qharden
